import Mathlib

/-!
Shallow embedding of the `jimmc414/scheduler` repository
(`workflow_manager.py`, `scheduler.py`, `utils.py`) used to check the
natural-language specification against the code.

Conventions of the embedding:
* Python `int` fields become `Int`; string data becomes `String`.
* The outside world (the external process started by `subprocess.run`, the
  file system polled for output files) is passed in as an explicit oracle.
* Python exceptions are modelled with `Except`: code that catches them is a
  total function, code that can raise returns an `Except` (or, when the
  source contains no `raise` on a path, the embedding pairs the result with
  the post-state so the absence of an exception is visible in the type).
-/

namespace Sched

/-- `ExecutionResult` from `workflow_manager.py`: exit code, stdout, stderr. -/
structure ExecutionResult where
  exit_code : Int
  stdout : String
  stderr : String
deriving Repr, DecidableEq

/-- `Task` dataclass from `workflow_manager.py` (lines 19-30).  The dataclass
defaults (`current_retry = 0`, `timeout = None`) are the field defaults. -/
structure Task where
  id : String
  command : String
  args : List String
  expected_exit_codes : List Int
  output_files : List String
  retry_count : Int
  retry_delay : Int
  continue_on_failure : Bool
  current_retry : Int := 0
  timeout : Option Int := none
deriving Repr, DecidableEq

/-- Outcome of one call to `subprocess.run` in `Task.execute`, supplied by the
world oracle: the process completed with an exit code and captured output, or
the wall-clock timeout expired, or spawning/running raised some other
exception (carrying its message). -/
inductive RawOutcome where
  | completed (exit_code : Int) (stdout stderr : String)
  | timedOut
  | spawnError (msg : String)
deriving Repr, DecidableEq

/-- Python exceptions that can escape the `try` body of `Task.execute`:
`subprocess.TimeoutExpired` or any other `Exception`. -/
inductive PyExn where
  | timeoutExpired
  | exn (msg : String)
deriving Repr, DecidableEq

/-- The `try` body of `Task.execute` (lines 36-48): `subprocess.run` either
returns an `ExecutionResult` built from the completed process or raises. -/
def subprocess_result (raw : RawOutcome) : Except PyExn ExecutionResult :=
  match raw with
  | .completed code out err => .ok ⟨code, out, err⟩
  | .timedOut => .error .timeoutExpired
  | .spawnError m => .error (.exn m)

/-- `Task.execute` (lines 32-62): runs the command and catches both
`subprocess.TimeoutExpired` (line 49, yielding exit code `-1` and the stderr
text `Task timed out`) and every other `Exception` (line 56, yielding exit
code `-1` and the exception message).  Total: no exception escapes. -/
def Task.execute (_t : Task) (raw : RawOutcome) : ExecutionResult :=
  match subprocess_result raw with
  | .ok r => r
  | .error .timeoutExpired => ⟨-1, "", "Task timed out"⟩
  | .error (.exn m) => ⟨-1, "", m⟩

/-- Modelled from the spec: `wait_for_file` is imported by
`workflow_manager.py` from `utils.py` but is absent from the provided
sources.  Spec / 4.6 and / 6: poll the path once per second until it exists
and is not exclusively locked, up to the readiness timeout (default 60 s).
`env p s` states that path `p` is ready (exists and is not exclusively
locked) at the `s`-th one-second poll. -/
def wait_for_file (env : String → Nat → Bool) (path : String) (timeout : Nat) : Bool :=
  (List.range timeout).any (fun s => env path s)

/-- `Task.monitor_output_files` (lines 64-73): every declared output file must
become ready within the fixed 60-second readiness timeout; the first file
that is not ready makes the result `false`. -/
def Task.monitor_output_files (t : Task) (env : String → Nat → Bool) : Bool :=
  t.output_files.all (fun p => wait_for_file env p 60)

/-- Observable events of one `execute_task` call: each invocation of the
external command (tagged with the value of `current_retry` at that attempt,
and the `ExecutionResult` it produced) and each `time.sleep` between failed
attempts (tagged with the slept seconds). -/
inductive RunEvent where
  | attempt (retryIdx : Int) (result : ExecutionResult)
  | sleep (seconds : Int)
deriving Repr, DecidableEq

/-- Number of command invocations recorded in an event list. -/
def countAttempts : List RunEvent → Nat
  | [] => 0
  | RunEvent.attempt _ _ :: es => countAttempts es + 1
  | RunEvent.sleep _ :: es => countAttempts es

/-- The sleep durations recorded in an event list, in order. -/
def sleepsOf : List RunEvent → List Int
  | [] => []
  | RunEvent.attempt _ _ :: es => sleepsOf es
  | RunEvent.sleep s :: es => s :: sleepsOf es

/-- The `current_retry` values at which the command was invoked, in order. -/
def attemptIdxs : List RunEvent → List Int
  | [] => []
  | RunEvent.attempt i _ :: es => i :: attemptIdxs es
  | RunEvent.sleep _ :: es => attemptIdxs es

/-- Result of the `while` loop of `WorkflowManager.execute_task`: the returned
boolean, the final value of the task's `current_retry` field, and the events
(command invocations and sleeps) in order. -/
structure LoopResult where
  ok : Bool
  finalRetry : Int
  events : List RunEvent
deriving Repr, DecidableEq

/-- The `while task.current_retry <= task.retry_count` loop of
`WorkflowManager.execute_task` (lines 113-137), with the loop counter `cr`
standing for `task.current_retry` (the only task field the loop writes).
`beh cr` is the world's outcome for the command invocation performed when the
counter equals `cr`; since the loop increments the counter after every failed
attempt, successive attempts read successive oracle entries.

The `fuel` argument is the standard structural-recursion device: it is
instantiated by `execute_task` with the exact number of remaining permitted
iterations `(retry_count + 1 - cr).toNat`, so `fuel = 0` holds exactly when
the `while` condition `cr <= retry_count` is already false, and the `0` case
is the loop-exit `return False` of line 137. -/
def execute_task_go (t : Task) (beh : Int → RawOutcome) (env : String → Nat → Bool) :
    Nat → Int → LoopResult
  | 0, cr => ⟨false, cr, []⟩
  | fuel + 1, cr =>
    let result := Task.execute t (beh cr)
    if result.exit_code ∈ t.expected_exit_codes then
      if t.output_files ≠ [] then
        ⟨Task.monitor_output_files t env, cr, [RunEvent.attempt cr result]⟩
      else
        ⟨true, cr, [RunEvent.attempt cr result]⟩
    else
      if cr < t.retry_count then
        let rest := execute_task_go t beh env fuel (cr + 1)
        ⟨rest.ok, rest.finalRetry,
          RunEvent.attempt cr result :: RunEvent.sleep t.retry_delay :: rest.events⟩
      else
        ⟨false, cr, [RunEvent.attempt cr result]⟩

/-- Result of `WorkflowManager.execute_task`: the returned boolean, the task
object after the call (its `current_retry` field mutated in place by the
loop), and the recorded events. -/
structure TaskRun where
  ok : Bool
  task : Task
  events : List RunEvent
deriving Repr, DecidableEq

/-- `WorkflowManager.execute_task` (lines 112-137).  The loop starts from the
task's current `current_retry` value — the method performs no reset — and the
task object keeps the final counter value afterwards. -/
def execute_task (t : Task) (beh : Int → RawOutcome) (env : String → Nat → Bool) : TaskRun :=
  let r := execute_task_go t beh env (t.retry_count + 1 - t.current_retry).toNat t.current_retry
  ⟨r.ok, { t with current_retry := r.finalRetry }, r.events⟩

/-- Lookup in a Python `dict` represented as an insertion-ordered association
list: the value stored under the key, if present. -/
def dictLookup {α : Type} (l : List (String × α)) (i : String) : Option α :=
  match l with
  | [] => none
  | p :: rest => if p.1 = i then some p.2 else dictLookup rest i

/-- Assignment `d[i] = v` on a Python `dict` represented as an
insertion-ordered association list: an existing key keeps its position and
gets the new value, a new key is appended. -/
def dictSet {α : Type} (l : List (String × α)) (i : String) (v : α) : List (String × α) :=
  match dictLookup l i with
  | some _ => l.map (fun p => if p.1 = i then (i, v) else p)
  | none => l ++ [(i, v)]

/-- `Workflow` dataclass from `workflow_manager.py` (lines 75-82). -/
structure Workflow where
  id : String
  tasks : List Task := []
deriving Repr, DecidableEq

/-- `Workflow.add_task` (lines 80-82): append the task to the list. -/
def Workflow.add_task (w : Workflow) (t : Task) : Workflow :=
  { w with tasks := w.tasks ++ [t] }

/-- `WorkflowManager` (lines 84-93): a `dict` from workflow id to workflow. -/
structure WorkflowManager where
  workflows : List (String × Workflow) := []
deriving Repr, DecidableEq

/-- `WorkflowManager.add_workflow` (lines 88-90):
`self.workflows[workflow.id] = workflow`. -/
def WorkflowManager.add_workflow (m : WorkflowManager) (w : Workflow) : WorkflowManager :=
  ⟨dictSet m.workflows w.id w⟩

/-- `WorkflowManager.get_workflow` (lines 92-93): `self.workflows.get(id)`. -/
def WorkflowManager.get_workflow (m : WorkflowManager) (i : String) : Option Workflow :=
  dictLookup m.workflows i

/-- The `for task in workflow.tasks` loop of
`WorkflowManager.execute_workflow` (lines 101-109).  `beh i` is the command
oracle for the task with id `i`.  Returns the per-task outcomes
`(task id, success)` in execution order, and the task list after the pass
(each executed task carries its mutated `current_retry`; on an abort the
unattempted tail is returned unchanged).  A failed task with
`continue_on_failure = false` breaks the loop (line 107); otherwise execution
proceeds with the next task. -/
def execute_workflow_tasks (beh : String → Int → RawOutcome) (env : String → Nat → Bool) :
    List Task → List (String × Bool) × List Task
  | [] => ([], [])
  | t :: rest =>
    let run := execute_task t (beh t.id) env
    if run.ok then
      let r := execute_workflow_tasks beh env rest
      ((t.id, true) :: r.1, run.task :: r.2)
    else if t.continue_on_failure then
      let r := execute_workflow_tasks beh env rest
      ((t.id, false) :: r.1, run.task :: r.2)
    else
      ([(t.id, false)], run.task :: rest)

/-- Error taxonomy of the spec (section 7) for the errors the embedded code
can signal.  `validationError` is raised by `add_job` on an unknown trigger
type (the source raises a Python `ValueError` there; the spec's taxonomy
names that class `ValidationError`).  `notFoundError` is the spec's class for
unknown ids; the embedded code never constructs it, which is what claim C9 is
about. -/
inductive SchedErr where
  | validationError (msg : String)
  | notFoundError (msg : String)
deriving Repr, DecidableEq

/-- `WorkflowManager.execute_workflow` (lines 95-110).  The function body
contains no `raise`: when the id is unknown it logs an error and executes
`return` (line 99), so the embedding always produces `Except.ok`; the
`Except SchedErr` layer records that no exception escapes.  The manager is
returned alongside, with the executed workflow's tasks carrying their mutated
retry counters (the task objects are mutated in place in Python). -/
def WorkflowManager.execute_workflow (m : WorkflowManager) (beh : String → Int → RawOutcome)
    (env : String → Nat → Bool) (i : String) :
    Except SchedErr (List (String × Bool)) × WorkflowManager :=
  match m.get_workflow i with
  | none => (.ok [], m)
  | some w =>
    let r := execute_workflow_tasks beh env w.tasks
    (.ok r.1, m.add_workflow { w with tasks := r.2 })

/-- Trigger values built by `EnhancedAPScheduler.add_job` (scheduler.py lines
97-102): `CronTrigger(**trigger)`, `IntervalTrigger(**trigger)`,
`DateTrigger(**trigger)`, each treated as an opaque constructor over the
remaining keyword fields of the trigger dict. -/
inductive Trigger where
  | cron (fields : List (String × String))
  | interval (fields : List (String × String))
  | date (fields : List (String × String))
deriving Repr, DecidableEq

/-- A trigger specification in wire form (scheduler.py line 95: a `dict`):
`type` is the value popped by `trigger.pop('type', 'cron')` when present, and
`fields` are the remaining keyword entries. -/
structure TriggerDict where
  type : Option String := none
  fields : List (String × String) := []
deriving Repr, DecidableEq

/-- The job record buffered by `EnhancedAPScheduler.stop` (scheduler.py lines
75-85) and stored by the underlying scheduler: func (an opaque callable
reference), trigger, id, name, args. -/
structure JobRec where
  func : String
  trigger : Trigger
  id : String
  name : String
  args : List String
deriving Repr, DecidableEq

/-- `EnhancedAPScheduler` state (scheduler.py lines 32-37).  `sched_jobs` is
the job table of the wrapped `BackgroundScheduler`.  Modelled from the spec:
the wrapped APScheduler with its SQLAlchemy job store is not part of the
provided sources; per spec section 4.2 it is a durable keyed store that
survives restarts (`shutdown` stops the firing loop without clearing it) and
whose `upsert` on an existing id overwrites.  `is_running` and `jobs` (the
in-memory buffer `self.jobs` used while stopped, line 37) are the wrapper's
own fields from the source. -/
structure EnhancedAPScheduler where
  sched_jobs : List (String × JobRec) := []
  is_running : Bool := false
  jobs : List JobRec := []
deriving Repr, DecidableEq

/-- Modelled from the spec: `scheduler.add_job` of the wrapped APScheduler
persists the record into the keyed job store under its id; per spec section
4.2 `upsert` on an existing id overwrites. -/
def EnhancedAPScheduler.sched_add_job (s : EnhancedAPScheduler) (rec : JobRec) :
    EnhancedAPScheduler :=
  { s with sched_jobs := dictSet s.sched_jobs rec.id rec }

/-- `EnhancedAPScheduler.start` (scheduler.py lines 59-70): if not running,
start the wrapped scheduler, re-add every job buffered in `self.jobs`, and
clear the buffer; if already running, do nothing. -/
def EnhancedAPScheduler.start (s : EnhancedAPScheduler) : EnhancedAPScheduler :=
  if s.is_running then s
  else
    let started := { s with is_running := true }
    let restored := started.jobs.foldl EnhancedAPScheduler.sched_add_job started
    { restored with jobs := [] }

/-- `EnhancedAPScheduler.stop` (scheduler.py lines 72-91): if running, copy
every job of the wrapped scheduler into the in-memory buffer `self.jobs`,
then shut the wrapped scheduler down (its durable store keeps the records);
if not running, do nothing. -/
def EnhancedAPScheduler.stop (s : EnhancedAPScheduler) : EnhancedAPScheduler :=
  if s.is_running then
    { s with jobs := s.sched_jobs.map Prod.snd, is_running := false }
  else s

/-- `EnhancedAPScheduler.add_job` (scheduler.py lines 93-106) on a dict
trigger specification: pop `type` (default `cron`), build the matching
trigger, else raise `ValueError` (the spec's ValidationError) before anything
is stored; on success hand the job to the wrapped scheduler.  The result is
paired with the post-state so that the raising path visibly leaves the state
untouched. -/
def EnhancedAPScheduler.add_job (s : EnhancedAPScheduler) (func : String)
    (trigger : TriggerDict) (i : String) (name : String) (args : List String) :
    Except SchedErr Unit × EnhancedAPScheduler :=
  let ttype := trigger.type.getD "cron"
  if ttype = "cron" then
    (.ok (), s.sched_add_job ⟨func, Trigger.cron trigger.fields, i, name, args⟩)
  else if ttype = "interval" then
    (.ok (), s.sched_add_job ⟨func, Trigger.interval trigger.fields, i, name, args⟩)
  else if ttype = "date" then
    (.ok (), s.sched_add_job ⟨func, Trigger.date trigger.fields, i, name, args⟩)
  else
    (.error (SchedErr.validationError ("Unknown trigger type: " ++ ttype)), s)

/-- The view of a job returned by `EnhancedAPScheduler.get_jobs`
(scheduler.py lines 111-131): id, name and trigger (the model leaves out
`next_run_time`, which no settled claim mentions). -/
structure JobView where
  id : String
  name : String
  trigger : Trigger
deriving Repr, DecidableEq

/-- `EnhancedAPScheduler.get_jobs` (scheduler.py lines 111-131): when running,
list the wrapped scheduler's jobs; when stopped, list the in-memory buffer. -/
def EnhancedAPScheduler.get_jobs (s : EnhancedAPScheduler) : List JobView :=
  if s.is_running then s.sched_jobs.map (fun p => ⟨p.2.id, p.2.name, p.2.trigger⟩)
  else s.jobs.map (fun r => ⟨r.id, r.name, r.trigger⟩)

/-- Event pattern of an `execute_task` run all of whose attempts fail,
starting at retry counter `cr` with `n` retries remaining: `n + 1` command
invocations alternating with `n` sleeps of `retry_delay` seconds. -/
def failEventsFrom (t : Task) (beh : Int → RawOutcome) : Nat → Int → List RunEvent
  | 0, cr => [RunEvent.attempt cr (Task.execute t (beh cr))]
  | n + 1, cr =>
    RunEvent.attempt cr (Task.execute t (beh cr)) :: RunEvent.sleep t.retry_delay ::
      failEventsFrom t beh n (cr + 1)

/-- The per-task outcomes `(task id, success)` of one workflow pass, in
execution order. -/
def workflowTrace (beh : String → Int → RawOutcome) (env : String → Nat → Bool)
    (tasks : List Task) : List (String × Bool) :=
  (execute_workflow_tasks beh env tasks).1

/-- Concrete fixture: the spec's scenario task
`Task{command:"exit 1", expected_exit_codes:[0], retry_count:2, retry_delay:1}`. -/
def demoTask : Task :=
  { id := "t1", command := "exit 1", args := [], expected_exit_codes := [0],
    output_files := [], retry_count := 2, retry_delay := 1, continue_on_failure := false }

/-- Concrete fixture: the command always exits with code 1. -/
def behFail : Int → RawOutcome := fun _ => RawOutcome.completed 1 "" ""

/-- Concrete fixture: no output file ever becomes ready. -/
def envNever : String → Nat → Bool := fun _ _ => false

/-- Concrete fixture: a persisted job record. -/
def job1 : JobRec :=
  { func := "f", trigger := Trigger.interval [("minutes", "5")], id := "j1",
    name := "job1", args := [] }

/-- Concrete fixture: a running scheduler holding `job1`, with an empty
stopped-state buffer. -/
def sched1 : EnhancedAPScheduler :=
  { sched_jobs := [("j1", job1)], is_running := true, jobs := [] }

/-- Concrete fixture: the first attempt's spawn fails, later attempts exit 1. -/
def behSpawn : Int → RawOutcome :=
  fun j => if j = 0 then RawOutcome.spawnError "boom" else RawOutcome.completed 1 "" ""

/-- Concrete fixture: like `behSpawn` but the first attempt completes with a
non-matching exit code instead of failing to spawn. -/
def behNoMatch : Int → RawOutcome :=
  fun j => if j = 0 then RawOutcome.completed 1 "" "" else RawOutcome.completed 1 "" ""

/-- Concrete fixture: a four-task workflow — task `a` fails but is marked
continue-on-failure, task `b` succeeds, task `c` fails and aborts, task `d`
is never reached. -/
def wfDemo : List Task :=
  [ { demoTask with id := "a", continue_on_failure := true },
    { demoTask with id := "b", expected_exit_codes := [1] },
    { demoTask with id := "c" },
    { demoTask with id := "d" } ]

/-- Concrete fixture: every task's command exits with code 1. -/
def wfBeh : String → Int → RawOutcome := fun _ => behFail

theorem execute_task_go_succ (t : Task) (beh : Int → RawOutcome) (env : String → Nat → Bool)
    (fuel : Nat) (cr : Int) :
    execute_task_go t beh env (fuel + 1) cr
      = (if (Task.execute t (beh cr)).exit_code ∈ t.expected_exit_codes then
          if t.output_files ≠ [] then
            ⟨Task.monitor_output_files t env, cr, [RunEvent.attempt cr (Task.execute t (beh cr))]⟩
          else
            ⟨true, cr, [RunEvent.attempt cr (Task.execute t (beh cr))]⟩
        else
          if cr < t.retry_count then
            ⟨(execute_task_go t beh env fuel (cr + 1)).ok,
              (execute_task_go t beh env fuel (cr + 1)).finalRetry,
              RunEvent.attempt cr (Task.execute t (beh cr)) :: RunEvent.sleep t.retry_delay ::
                (execute_task_go t beh env fuel (cr + 1)).events⟩
          else
            ⟨false, cr, [RunEvent.attempt cr (Task.execute t (beh cr))]⟩) := rfl

theorem execute_task_go_allfail (t : Task) (beh : Int → RawOutcome) (env : String → Nat → Bool)
    (hf : ∀ k, (Task.execute t (beh k)).exit_code ∉ t.expected_exit_codes) :
    ∀ n cr, cr ≤ t.retry_count → (t.retry_count - cr).toNat = n →
      execute_task_go t beh env (n + 1) cr
        = ⟨false, t.retry_count, failEventsFrom t beh n cr⟩ := by
  intro n
  induction n with
  | zero =>
    intro cr hle h0
    have hcr : cr = t.retry_count := by omega
    rw [execute_task_go_succ, if_neg (hf cr), if_neg (show ¬cr < t.retry_count by omega)]
    simp [failEventsFrom, hcr]
  | succ n ih =>
    intro cr hle hn
    have hlt : cr < t.retry_count := by omega
    rw [execute_task_go_succ, if_neg (hf cr), if_pos hlt, ih (cr + 1) (by omega) (by omega)]
    simp [failEventsFrom]

theorem countAttempts_failEventsFrom (t : Task) (beh : Int → RawOutcome) :
    ∀ n cr, countAttempts (failEventsFrom t beh n cr) = n + 1 := by
  intro n
  induction n with
  | zero => intro cr; simp [failEventsFrom, countAttempts]
  | succ n ih => intro cr; simp [failEventsFrom, countAttempts, ih (cr + 1)]

theorem sleepsOf_failEventsFrom (t : Task) (beh : Int → RawOutcome) :
    ∀ n cr, sleepsOf (failEventsFrom t beh n cr) = List.replicate n t.retry_delay := by
  intro n
  induction n with
  | zero => intro cr; simp [failEventsFrom, sleepsOf]
  | succ n ih => intro cr; simp [failEventsFrom, sleepsOf, ih (cr + 1), List.replicate]

/-- C1: a task with `retry_count = R >= 0` whose command's exit code is never
in `expected_exit_codes`, started with `current_retry = 0`, is invoked
exactly `R + 1` times, the events alternate invocations with sleeps of
`retry_delay` seconds between consecutive failed attempts (the `R` recorded
sleeps all equal `retry_delay`), and `execute_task` returns `false`. -/
theorem c1_retry_bound (t : Task) (beh : Int → RawOutcome) (env : String → Nat → Bool)
    (h0 : t.current_retry = 0) (hR : 0 ≤ t.retry_count)
    (hf : ∀ k, (Task.execute t (beh k)).exit_code ∉ t.expected_exit_codes) :
    (execute_task t beh env).ok = false ∧
      (execute_task t beh env).events = failEventsFrom t beh t.retry_count.toNat 0 ∧
      countAttempts (execute_task t beh env).events = t.retry_count.toNat + 1 ∧
      sleepsOf (execute_task t beh env).events
        = List.replicate t.retry_count.toNat t.retry_delay := by
  have hgo := execute_task_go_allfail t beh env hf t.retry_count.toNat 0 (by omega) (by omega)
  have hfuel : (t.retry_count + 1 - t.current_retry).toNat = t.retry_count.toNat + 1 := by
    omega
  simp only [execute_task, h0] at hfuel ⊢
  rw [hfuel, hgo]
  exact ⟨rfl, rfl, countAttempts_failEventsFrom t beh _ 0,
    sleepsOf_failEventsFrom t beh _ 0⟩

/-- Witness for C1 at the spec's scenario task: 3 attempts, result Failed. -/
theorem c1_retry_bound_w :
    demoTask.current_retry = 0 ∧ 0 ≤ demoTask.retry_count ∧
      (execute_task demoTask behFail envNever).ok = false ∧
      countAttempts (execute_task demoTask behFail envNever).events = 3 := by
  have h := c1_retry_bound demoTask behFail envNever rfl (by decide)
    (fun k => by simp [behFail, Task.execute, subprocess_result, demoTask])
  refine ⟨rfl, by decide, h.1, ?_⟩
  rw [h.2.2.1]
  decide

/-- C2 counterexample: `execute_task` never resets `current_retry`.  On the
always-failing scenario task the first call makes 3 attempts and leaves
`current_retry = 2` on the Task object; a second call on the same object
makes only 1 attempt, not the 3 a reset-to-0 would give. -/
theorem c2_reset_cex :
    countAttempts (execute_task demoTask behFail envNever).events = 3 ∧
      (execute_task demoTask behFail envNever).task.current_retry = 2 ∧
      countAttempts
          (execute_task (execute_task demoTask behFail envNever).task behFail envNever).events
        = 1 ∧
      (1 : Nat) ≠ 3 := by
  decide

/-- C2 amended: `current_retry` is 0 only as the dataclass default at Task
creation; `execute_task` performs no reset.  With every attempt failing and
`current_retry = 0` on entry, the first call makes `retry_count + 1` attempts
and leaves `current_retry = retry_count` on the task object, so a repeated
invocation of `execute_task` on the same Task object resumes from the
exhausted counter and makes exactly one attempt instead of a full budget. -/
theorem c2_no_reset (t : Task) (beh : Int → RawOutcome) (env : String → Nat → Bool)
    (h0 : t.current_retry = 0) (hR : 0 ≤ t.retry_count)
    (hf : ∀ k, (Task.execute t (beh k)).exit_code ∉ t.expected_exit_codes) :
    countAttempts (execute_task t beh env).events = t.retry_count.toNat + 1 ∧
      (execute_task t beh env).task.current_retry = t.retry_count ∧
      countAttempts (execute_task (execute_task t beh env).task beh env).events = 1 := by
  have hgo := execute_task_go_allfail t beh env hf t.retry_count.toNat 0 (by omega) (by omega)
  have hfuel : (t.retry_count + 1 - t.current_retry).toNat = t.retry_count.toNat + 1 := by
    omega
  have hrun : execute_task t beh env
      = ⟨false, { t with current_retry := t.retry_count },
          failEventsFrom t beh t.retry_count.toNat 0⟩ := by
    simp only [execute_task, h0] at hfuel ⊢
    rw [hfuel, hgo]
  refine ⟨by rw [hrun]; exact countAttempts_failEventsFrom t beh _ 0, by rw [hrun], ?_⟩
  rw [hrun]
  have hgo2 := execute_task_go_allfail { t with current_retry := t.retry_count } beh env hf
    0 t.retry_count (by show t.retry_count ≤ t.retry_count; omega)
    (by show (t.retry_count - t.retry_count).toNat = 0; omega)
  have hfuel2 : (t.retry_count + 1 - t.retry_count).toNat = 0 + 1 := by omega
  simp only [execute_task]
  rw [hfuel2, hgo2]
  exact countAttempts_failEventsFrom { t with current_retry := t.retry_count } beh 0 _

/-- Witness for the amended C2 at the scenario task. -/
theorem c2_no_reset_w :
    countAttempts (execute_task demoTask behFail envNever).events = 3 ∧
      countAttempts
          (execute_task (execute_task demoTask behFail envNever).task behFail envNever).events
        = 1 := by
  have h := c2_no_reset demoTask behFail envNever rfl (by decide)
    (fun k => by simp [behFail, Task.execute, subprocess_result, demoTask])
  refine ⟨?_, h.2.2⟩
  rw [h.1]
  decide

theorem execute_task_go_invariant (t : Task) (beh : Int → RawOutcome)
    (env : String → Nat → Bool) :
    ∀ fuel cr, cr ≤ t.retry_count →
      (execute_task_go t beh env fuel cr).finalRetry ≤ t.retry_count ∧
        ∀ i ∈ attemptIdxs (execute_task_go t beh env fuel cr).events, i ≤ t.retry_count := by
  intro fuel
  induction fuel with
  | zero =>
    intro cr h
    exact ⟨h, by simp [execute_task_go, attemptIdxs]⟩
  | succ fuel ih =>
    intro cr h
    rw [execute_task_go_succ]
    by_cases h1 : (Task.execute t (beh cr)).exit_code ∈ t.expected_exit_codes
    · rw [if_pos h1]
      by_cases h2 : t.output_files ≠ []
      · rw [if_pos h2]
        exact ⟨h, by simp [attemptIdxs]; omega⟩
      · rw [if_neg h2]
        exact ⟨h, by simp [attemptIdxs]; omega⟩
    · rw [if_neg h1]
      by_cases h3 : cr < t.retry_count
      · rw [if_pos h3]
        have hrec := ih (cr + 1) (by omega)
        refine ⟨hrec.1, ?_⟩
        intro i hi
        simp [attemptIdxs] at hi
        rcases hi with hi | hi
        · omega
        · exact hrec.2 i hi
      · rw [if_neg h3]
        exact ⟨h, by simp [attemptIdxs]; omega⟩

/-- C6: assuming `current_retry <= retry_count` on entry, the invariant holds
throughout and after `execute_task`: every command invocation happens with a
counter value at most `retry_count` (the counter is only incremented under
the guard `current_retry < retry_count`), and the task's final counter is at
most `retry_count`. -/
theorem c6_retry_invariant (t : Task) (beh : Int → RawOutcome) (env : String → Nat → Bool)
    (h : t.current_retry ≤ t.retry_count) :
    (execute_task t beh env).task.current_retry ≤ t.retry_count ∧
      ∀ i ∈ attemptIdxs (execute_task t beh env).events, i ≤ t.retry_count := by
  have hinv := execute_task_go_invariant t beh env
    (t.retry_count + 1 - t.current_retry).toNat t.current_retry h
  exact ⟨hinv.1, hinv.2⟩

/-- Witness for C6 at the scenario task started mid-budget. -/
theorem c6_retry_invariant_w :
    ({ demoTask with current_retry := 1 } : Task).current_retry
        ≤ ({ demoTask with current_retry := 1 } : Task).retry_count ∧
      (execute_task { demoTask with current_retry := 1 } behFail envNever).task.current_retry
        ≤ ({ demoTask with current_retry := 1 } : Task).retry_count := by
  refine ⟨by decide, ?_⟩
  exact (c6_retry_invariant { demoTask with current_retry := 1 } behFail envNever
    (by decide)).1

/-- C10 (implicit claim from the loop guard): when `current_retry` already
exceeds `retry_count` on entry, the `while` condition is false at once, so
`execute_task` returns `false` via line 137 with zero command invocations and
the task unchanged. -/
theorem c10_exhausted_no_attempts (t : Task) (beh : Int → RawOutcome)
    (env : String → Nat → Bool) (h : t.retry_count < t.current_retry) :
    execute_task t beh env = ⟨false, t, []⟩ := by
  have hfuel : (t.retry_count + 1 - t.current_retry).toNat = 0 := by omega
  simp only [execute_task]
  rw [hfuel]
  rfl

/-- Witness for C10: a task whose counter (5) exceeds its retry_count (2). -/
theorem c10_exhausted_no_attempts_w :
    ({ demoTask with current_retry := 5 } : Task).retry_count < 5 ∧
      execute_task { demoTask with current_retry := 5 } behFail envNever
        = ⟨false, { demoTask with current_retry := 5 }, []⟩ :=
  ⟨by decide, c10_exhausted_no_attempts { demoTask with current_retry := 5 } behFail envNever
    (by decide)⟩

/-- C4: when the attempt's exit code is in `expected_exit_codes` but some
declared output file fails to become ready within the 60-second readiness
timeout, `execute_task` returns `false` despite the matching exit code, the
command is invoked exactly once (no re-invocation for the readiness
failure), and the retry counter is untouched. -/
theorem c4_output_gating (t : Task) (beh : Int → RawOutcome) (env : String → Nat → Bool)
    (hle : t.current_retry ≤ t.retry_count)
    (hm : (Task.execute t (beh t.current_retry)).exit_code ∈ t.expected_exit_codes)
    (hne : t.output_files ≠ [])
    (hfail : ∃ p ∈ t.output_files, wait_for_file env p 60 = false) :
    (execute_task t beh env).ok = false ∧
      countAttempts (execute_task t beh env).events = 1 ∧
      (execute_task t beh env).task.current_retry = t.current_retry := by
  have hmon : Task.monitor_output_files t env = false := by
    obtain ⟨p, hp, hpf⟩ := hfail
    simp only [Task.monitor_output_files]
    rw [List.all_eq_false]
    exact ⟨p, hp, by simp [hpf]⟩
  have hfuel : (t.retry_count + 1 - t.current_retry).toNat
      = (t.retry_count - t.current_retry).toNat + 1 := by omega
  simp only [execute_task]
  rw [hfuel, execute_task_go_succ, if_pos hm, if_pos hne, hmon]
  exact ⟨rfl, rfl, rfl⟩

/-- Witness for C4: exit code 1 is expected, but the single output file never
appears; the task is reported failed after one invocation. -/
theorem c4_output_gating_w :
    (execute_task { demoTask with expected_exit_codes := [1], output_files := ["out"] }
        behFail envNever).ok = false ∧
      countAttempts (execute_task
          { demoTask with expected_exit_codes := [1], output_files := ["out"] }
          behFail envNever).events = 1 := by
  have h := c4_output_gating { demoTask with expected_exit_codes := [1], output_files := ["out"] }
    behFail envNever (by decide) (by decide) (by decide) ⟨"out", by decide, by decide⟩
  exact ⟨h.1, h.2.1⟩

theorem execute_task_go_congr (t : Task) (beh beh' : Int → RawOutcome)
    (env : String → Nat → Bool)
    (hagree : ∀ j, (Task.execute t (beh j)).exit_code ∈ t.expected_exit_codes ↔
        (Task.execute t (beh' j)).exit_code ∈ t.expected_exit_codes) :
    ∀ fuel cr,
      (execute_task_go t beh env fuel cr).ok = (execute_task_go t beh' env fuel cr).ok ∧
        (execute_task_go t beh env fuel cr).finalRetry
          = (execute_task_go t beh' env fuel cr).finalRetry ∧
        countAttempts (execute_task_go t beh env fuel cr).events
          = countAttempts (execute_task_go t beh' env fuel cr).events := by
  intro fuel
  induction fuel with
  | zero => intro cr; exact ⟨rfl, rfl, rfl⟩
  | succ fuel ih =>
    intro cr
    rw [execute_task_go_succ t beh env, execute_task_go_succ t beh' env]
    by_cases h1 : (Task.execute t (beh cr)).exit_code ∈ t.expected_exit_codes
    · rw [if_pos h1, if_pos ((hagree cr).1 h1)]
      by_cases h2 : t.output_files ≠ []
      · rw [if_pos h2, if_pos h2]; exact ⟨rfl, rfl, rfl⟩
      · rw [if_neg h2, if_neg h2]; exact ⟨rfl, rfl, rfl⟩
    · rw [if_neg h1, if_neg (fun hx => h1 ((hagree cr).2 hx))]
      by_cases h3 : cr < t.retry_count
      · rw [if_pos h3, if_pos h3]
        have hrec := ih (cr + 1)
        exact ⟨hrec.1, hrec.2.1, by simp [countAttempts, hrec.2.2]⟩
      · rw [if_neg h3, if_neg h3]; exact ⟨rfl, rfl, rfl⟩

/-- C5: `Task.execute` is total over every raw process outcome — exceptions
are caught inside it, so `execute_task` only ever returns a boolean.  A
wall-clock timeout is mapped to an `ExecutionResult` with `exit_code = -1`
and the descriptive stderr `Task timed out`; a process-spawn error (any other
exception, raised in the raw semantics `subprocess_result`) is likewise
mapped to `exit_code = -1`, and — when `-1` is not an expected exit code —
an attempt whose outcome is a spawn error drives `execute_task` through
exactly the same retry path as an attempt with a non-matching exit code:
same returned boolean, same final retry counter, same number of attempts. -/
theorem c5_exceptions_boundary (t : Task) (beh beh' : Int → RawOutcome)
    (env : String → Nat → Bool) (k : Int) (msg : String) (c : Int) (out err : String)
    (hspawn : beh k = RawOutcome.spawnError msg)
    (hcomp : beh' k = RawOutcome.completed c out err)
    (hc : c ∉ t.expected_exit_codes)
    (hneg : (-1 : Int) ∉ t.expected_exit_codes)
    (hrest : ∀ j, j ≠ k → beh j = beh' j) :
    subprocess_result (RawOutcome.spawnError msg) = Except.error (PyExn.exn msg) ∧
      Task.execute t RawOutcome.timedOut = ⟨-1, "", "Task timed out"⟩ ∧
      Task.execute t (RawOutcome.spawnError msg) = ⟨-1, "", msg⟩ ∧
      (execute_task t beh env).ok = (execute_task t beh' env).ok ∧
      (execute_task t beh env).task = (execute_task t beh' env).task ∧
      countAttempts (execute_task t beh env).events
        = countAttempts (execute_task t beh' env).events := by
  have hagree : ∀ j, (Task.execute t (beh j)).exit_code ∈ t.expected_exit_codes ↔
      (Task.execute t (beh' j)).exit_code ∈ t.expected_exit_codes := by
    intro j
    by_cases hj : j = k
    · subst hj
      rw [hspawn, hcomp]
      simp only [Task.execute, subprocess_result]
      exact ⟨fun hx => absurd hx hneg, fun hx => absurd hx hc⟩
    · rw [hrest j hj]
  have hcg := execute_task_go_congr t beh beh' env hagree
    (t.retry_count + 1 - t.current_retry).toNat t.current_retry
  refine ⟨rfl, rfl, rfl, hcg.1, ?_, hcg.2.2⟩
  simp only [execute_task]
  rw [hcg.2.1]

/-- Witness for C5: on the scenario task, a spawn error on the first attempt
behaves exactly like a non-matching exit code on the first attempt. -/
theorem c5_exceptions_boundary_w :
    Task.execute demoTask RawOutcome.timedOut = ⟨-1, "", "Task timed out"⟩ ∧
      (execute_task demoTask behSpawn envNever).ok
        = (execute_task demoTask behNoMatch envNever).ok ∧
      countAttempts (execute_task demoTask behSpawn envNever).events
        = countAttempts (execute_task demoTask behNoMatch envNever).events := by
  have h := c5_exceptions_boundary demoTask behSpawn behNoMatch envNever 0 "boom" 1 "" ""
    (by decide) (by decide) (by decide) (by decide)
    (fun j hj => by simp [behSpawn, behNoMatch, hj])
  exact ⟨h.2.1, h.2.2.2.1, h.2.2.2.2.2⟩

theorem workflowTrace_nil (beh : String → Int → RawOutcome) (env : String → Nat → Bool) :
    workflowTrace beh env [] = [] := rfl

theorem workflowTrace_cons (beh : String → Int → RawOutcome) (env : String → Nat → Bool)
    (t : Task) (rest : List Task) :
    workflowTrace beh env (t :: rest)
      = if (execute_task t (beh t.id) env).ok then
          (t.id, true) :: workflowTrace beh env rest
        else if t.continue_on_failure then
          (t.id, false) :: workflowTrace beh env rest
        else [(t.id, false)] := by
  simp only [workflowTrace, execute_workflow_tasks]
  by_cases h1 : (execute_task t (beh t.id) env).ok = true
  · rw [if_pos h1, if_pos h1]
  · rw [if_neg h1, if_neg h1]
    by_cases h2 : t.continue_on_failure = true
    · rw [if_pos h2, if_pos h2]
    · rw [if_neg h2, if_neg h2]

/-- C3: one workflow pass attempts the tasks in their fixed list order — the
attempted ids form the `take` of the task list of the trace's length; every
attempted-but-not-last task that failed had `continue_on_failure = true`
(execution proceeded to the next task); and the pass ends before task list
exhaustion only when the last attempted task failed with
`continue_on_failure = false` (the remaining tasks are never attempted). -/
theorem c3_workflow_order (tasks : List Task) (beh : String → Int → RawOutcome)
    (env : String → Nat → Bool) :
    (workflowTrace beh env tasks).map Prod.fst
        = (tasks.take (workflowTrace beh env tasks).length).map Task.id
      ∧ (∀ k, k + 1 < (workflowTrace beh env tasks).length →
          ((workflowTrace beh env tasks)[k]?).map Prod.snd = some false →
          (tasks[k]?).map Task.continue_on_failure = some true)
      ∧ ((workflowTrace beh env tasks).length < tasks.length →
          ((workflowTrace beh env tasks)[(workflowTrace beh env tasks).length - 1]?).map
              Prod.snd = some false
            ∧ (tasks[(workflowTrace beh env tasks).length - 1]?).map
                Task.continue_on_failure = some false) := by
  induction tasks with
  | nil =>
    refine ⟨rfl, ?_, ?_⟩
    · intro k hk
      simp [workflowTrace_nil] at hk
    · intro h
      simp [workflowTrace_nil] at h
  | cons t rest ih =>
    rw [workflowTrace_cons]
    by_cases hok : (execute_task t (beh t.id) env).ok = true
    · rw [if_pos hok]
      refine ⟨?_, ?_, ?_⟩
      · simp only [List.map_cons, List.length_cons, List.take_succ_cons]
        rw [ih.1]
      · intro k hk hf
        cases k with
        | zero => simp [List.getElem?_cons_zero] at hf
        | succ k =>
          simp only [List.getElem?_cons_succ] at hf ⊢
          exact ih.2.1 k (by simp only [List.length_cons] at hk; omega) hf
      · intro hlt
        have h3 := ih.2.2 (by simp only [List.length_cons] at hlt; omega)
        have hne : workflowTrace beh env rest ≠ [] := by
          intro hnil
          rw [hnil] at h3
          simp at h3
        have hpos : 1 ≤ (workflowTrace beh env rest).length := by
          rcases Nat.eq_zero_or_pos (workflowTrace beh env rest).length with h | h
          · exact absurd (List.eq_nil_of_length_eq_zero h) hne
          · exact h
        have hidx : ((t.id, true) :: workflowTrace beh env rest).length - 1
            = ((workflowTrace beh env rest).length - 1) + 1 := by
          simp only [List.length_cons]
          omega
        rw [hidx, List.getElem?_cons_succ, List.getElem?_cons_succ]
        exact h3
    · rw [if_neg hok]
      by_cases hcont : t.continue_on_failure = true
      · rw [if_pos hcont]
        refine ⟨?_, ?_, ?_⟩
        · simp only [List.map_cons, List.length_cons, List.take_succ_cons]
          rw [ih.1]
        · intro k hk hf
          cases k with
          | zero =>
            simp [List.getElem?_cons_zero, hcont]
          | succ k =>
            simp only [List.getElem?_cons_succ] at hf ⊢
            exact ih.2.1 k (by simp only [List.length_cons] at hk; omega) hf
        · intro hlt
          have h3 := ih.2.2 (by simp only [List.length_cons] at hlt; omega)
          have hne : workflowTrace beh env rest ≠ [] := by
            intro hnil
            rw [hnil] at h3
            simp at h3
          have hpos : 1 ≤ (workflowTrace beh env rest).length := by
            rcases Nat.eq_zero_or_pos (workflowTrace beh env rest).length with h | h
            · exact absurd (List.eq_nil_of_length_eq_zero h) hne
            · exact h
          have hidx : ((t.id, false) :: workflowTrace beh env rest).length - 1
              = ((workflowTrace beh env rest).length - 1) + 1 := by
            simp only [List.length_cons]
            omega
          rw [hidx, List.getElem?_cons_succ, List.getElem?_cons_succ]
          exact h3
      · rw [if_neg hcont]
        refine ⟨?_, ?_, ?_⟩
        · simp
        · intro k hk
          simp only [List.length_cons, List.length_nil] at hk
          omega
        · intro hlt
          simp only [Bool.not_eq_true] at hcont
          simp [List.getElem?_cons_zero, hcont]

/-- Witness for C3 on a four-task workflow: the attempted ids are the take of
the task list, and the pass stopped at a task with continue_on_failure
false. -/
theorem c3_workflow_order_w :
    (workflowTrace wfBeh envNever wfDemo).map Prod.fst
        = (wfDemo.take (workflowTrace wfBeh envNever wfDemo).length).map Task.id
      ∧ (wfDemo[(workflowTrace wfBeh envNever wfDemo).length - 1]?).map
          Task.continue_on_failure = some false := by
  have h := c3_workflow_order wfDemo wfBeh envNever
  exact ⟨h.1, (h.2.2 (by decide)).2⟩

/-- C7: `add_job` with a dict trigger specification whose `type` is none of
`interval`, `cron`, `date` raises before anything is stored: the result is
the spec taxonomy's ValidationError (the Python `ValueError` of line 104)
and the scheduler state — in particular the job store — is unchanged. -/
theorem c7_unknown_trigger (s : EnhancedAPScheduler) (func : String) (d : TriggerDict)
    (i name : String) (args : List String) (ty : String)
    (ht : d.type = some ty) (h1 : ty ≠ "interval") (h2 : ty ≠ "cron") (h3 : ty ≠ "date") :
    s.add_job func d i name args
      = (Except.error (SchedErr.validationError ("Unknown trigger type: " ++ ty)), s) := by
  simp [EnhancedAPScheduler.add_job, ht, h1, h2, h3]

/-- Witness for C7: trigger type `weekly` is rejected synchronously and the
scheduler — with it, the job store — is untouched. -/
theorem c7_unknown_trigger_w :
    EnhancedAPScheduler.add_job sched1 "f" ⟨some "weekly", []⟩ "j2" "n" []
      = (Except.error (SchedErr.validationError ("Unknown trigger type: " ++ "weekly")),
          sched1) :=
  c7_unknown_trigger sched1 "f" ⟨some "weekly", []⟩ "j2" "n" [] "weekly" rfl
    (by decide) (by decide) (by decide)

/-- C9 counterexample: `execute_workflow` on an empty registry with an
unknown id returns normally — the embedded result is `Except.ok` (the source
body has no `raise`: it logs and returns `None`), so no NotFoundError is
raised, refuting the claim as stated; the registry is indeed unchanged. -/
theorem c9_not_raising_cex :
    ((WorkflowManager.execute_workflow ⟨[]⟩ wfBeh envNever "missing").1).isOk = true ∧
      (WorkflowManager.execute_workflow ⟨[]⟩ wfBeh envNever "missing").2
        = (⟨[]⟩ : WorkflowManager) :=
  ⟨rfl, rfl⟩

/-- C9 amended: `execute_workflow` called with an unknown workflow id logs an
error and returns normally (Python `None`; no exception is raised), leaving
the workflow registry unchanged. -/
theorem c9_unknown_workflow (m : WorkflowManager) (beh : String → Int → RawOutcome)
    (env : String → Nat → Bool) (i : String) (h : m.get_workflow i = none) :
    (m.execute_workflow beh env i).1 = Except.ok [] ∧
      (m.execute_workflow beh env i).2 = m := by
  simp [WorkflowManager.execute_workflow, h]

/-- Witness for C9 amended: a registry holding one workflow, queried with a
different id. -/
theorem c9_unknown_workflow_w :
    (WorkflowManager.execute_workflow ⟨[("w", ⟨"w", wfDemo⟩)]⟩ wfBeh envNever "other").1
        = Except.ok [] ∧
      (WorkflowManager.execute_workflow ⟨[("w", ⟨"w", wfDemo⟩)]⟩ wfBeh envNever "other").2
        = (⟨[("w", ⟨"w", wfDemo⟩)]⟩ : WorkflowManager) :=
  c9_unknown_workflow ⟨[("w", ⟨"w", wfDemo⟩)]⟩ wfBeh envNever "other" rfl

/-- C8 counterexample: after `stop()` the wrapper holds the job definitions
in its in-memory buffer `self.jobs` — a separate shadow copy kept across
stop/start — refuting the claim's assertion that no such copy exists. -/
theorem c8_shadow_copy_cex :
    (EnhancedAPScheduler.stop sched1).jobs = [job1] ∧ [job1] ≠ ([] : List JobRec) := by
  decide

theorem dictLookup_isSome_of_mem {α : Type} {l : List (String × α)} {i : String} {v : α}
    (h : (i, v) ∈ l) : (dictLookup l i).isSome = true := by
  induction l with
  | nil => cases h
  | cons p rest ih =>
    rcases List.mem_cons.mp h with h1 | h1
    · rw [← h1]
      simp [dictLookup]
    · simp only [dictLookup]
      by_cases hp : p.1 = i
      · simp [hp]
      · simp [hp, ih h1]

theorem dictSet_eq_self {α : Type} {l : List (String × α)} {i : String} {v : α}
    (hmem : (i, v) ∈ l)
    (huniq : ∀ p ∈ l, ∀ q ∈ l, p.1 = q.1 → p = q) :
    dictSet l i v = l := by
  have hsome := dictLookup_isSome_of_mem hmem
  obtain ⟨w, hw⟩ := Option.isSome_iff_exists.mp hsome
  simp only [dictSet]
  rw [hw]
  have hfix : ∀ p ∈ l, (fun p : String × α => if p.1 = i then (i, v) else p) p = id p := by
    intro p hp
    by_cases hpi : p.1 = i
    · simpa [hpi] using (huniq p hp (i, v) hmem hpi).symm
    · simp [hpi]
  rw [List.map_congr_left hfix, List.map_id]

theorem foldl_sched_add_job_eq (recs : List JobRec) :
    ∀ s : EnhancedAPScheduler,
      (∀ r ∈ recs, (r.id, r) ∈ s.sched_jobs) →
      (∀ p ∈ s.sched_jobs, ∀ q ∈ s.sched_jobs, p.1 = q.1 → p = q) →
      recs.foldl EnhancedAPScheduler.sched_add_job s = s := by
  induction recs with
  | nil =>
    intro s _ _
    rfl
  | cons r rest ih =>
    intro s hmem huniq
    have hone : s.sched_add_job r = s := by
      simp only [EnhancedAPScheduler.sched_add_job]
      rw [dictSet_eq_self (hmem r (List.mem_cons_self r rest)) huniq]
    rw [List.foldl_cons, hone]
    exact ih s (fun x hx => hmem x (List.mem_cons_of_mem r hx)) huniq

/-- C8 amended: `stop()` then `start()` does leave every previously defined
job present in `list_jobs()` — the whole scheduler state round-trips — but
the definitions are carried across the toggle by the in-memory buffer
`self.jobs` that `stop()` populates and `start()` replays into the
(spec-modelled, durable) job store; contrary to the claim, the code does
keep a separate in-memory shadow copy of the jobs across stop/start.
Hypotheses: the scheduler is running with an empty buffer, and the job store
is keyed by record id with functional keys. -/
theorem c8_lifecycle_roundtrip (s : EnhancedAPScheduler)
    (hr : s.is_running = true) (hb : s.jobs = [])
    (hk : ∀ p ∈ s.sched_jobs, p.1 = p.2.id)
    (hu : ∀ p ∈ s.sched_jobs, ∀ q ∈ s.sched_jobs, p.1 = q.1 → p = q) :
    s.stop.start = s ∧ s.stop.start.get_jobs = s.get_jobs := by
  have hstop : s.stop
      = ⟨s.sched_jobs, false, s.sched_jobs.map Prod.snd⟩ := by
    simp only [EnhancedAPScheduler.stop]
    rw [if_pos hr]
  have hmem : ∀ r ∈ s.sched_jobs.map Prod.snd, (r.id, r) ∈ s.sched_jobs := by
    intro r hrm
    obtain ⟨p, hp, hpr⟩ := List.mem_map.mp hrm
    obtain ⟨a, b⟩ := p
    have ha := hk (a, b) hp
    simp only at ha hpr
    rw [← hpr, ← ha]
    exact hp
  have hfold := foldl_sched_add_job_eq (s.sched_jobs.map Prod.snd)
    ⟨s.sched_jobs, true, s.sched_jobs.map Prod.snd⟩ hmem hu
  have hstart : (⟨s.sched_jobs, false, s.sched_jobs.map Prod.snd⟩ :
      EnhancedAPScheduler).start = ⟨s.sched_jobs, true, []⟩ := by
    simp only [EnhancedAPScheduler.start]
    rw [if_neg (by simp)]
    rw [show ({ (⟨s.sched_jobs, false, s.sched_jobs.map Prod.snd⟩ : EnhancedAPScheduler)
      with is_running := true } : EnhancedAPScheduler)
      = ⟨s.sched_jobs, true, s.sched_jobs.map Prod.snd⟩ from rfl]
    rw [hfold]
  have hs : s = ⟨s.sched_jobs, true, []⟩ := by
    rw [← hr, ← hb]
  refine ⟨?_, ?_⟩
  · rw [hstop, hstart, ← hs]
  · rw [hstop, hstart, ← hs]

/-- Witness for C8 amended at `sched1`: the single defined job survives the
stop/start toggle. -/
theorem c8_lifecycle_roundtrip_w :
    sched1.stop.start = sched1 ∧ sched1.stop.start.get_jobs = sched1.get_jobs :=
  c8_lifecycle_roundtrip sched1 rfl rfl (by decide) (by decide)

end Sched
